import Mathlib

/-!
Verification of the image-describer single-page application (src/App.tsx).

The component keeps six pieces of state (image, loading, result, error,
apiKey, showKey) and exposes four handlers: loading the saved key on mount,
`saveApiKey`, `handleImageChange` and `analyzeImage`.  We embed the state
as a record, the handlers as pure functions, and the single asynchronous
inference call as a function of an environment describing the external
model's behaviour (a thrown error, or a response with an optional text
payload).  The platform's `JSON.parse` is modelled by an executable JSON
parser; the platform's `String.prototype.trim`, `String.prototype.includes`
and `String.prototype.split` are modelled by executable list functions.
-/

namespace ImageDescriber

/-! ### Model of the platform string primitives used by the component -/

/-- JavaScript whitespace characters (WhiteSpace and LineTerminator
productions), used to model `String.prototype.trim`. -/
def isJsWhitespace (c : Char) : Bool :=
  [9, 10, 11, 12, 13, 32, 0xa0, 0x1680, 0x2000, 0x2001, 0x2002, 0x2003,
   0x2004, 0x2005, 0x2006, 0x2007, 0x2008, 0x2009, 0x200a, 0x2028, 0x2029,
   0x202f, 0x205f, 0x3000, 0xfeff].contains c.toNat

/-- Model of `String.prototype.trim`: drop leading and trailing whitespace. -/
def jsTrim (s : String) : String :=
  ⟨((s.data.dropWhile isJsWhitespace).reverse.dropWhile isJsWhitespace).reverse⟩

/-- Boolean prefix test on character lists. -/
def prefixOf : List Char → List Char → Bool
  | [], _ => true
  | _ :: _, [] => false
  | a :: as, b :: bs => a = b && prefixOf as bs

/-- Substring occurrence test on character lists. -/
def containsSeq (hay pat : List Char) : Bool :=
  match hay with
  | [] => pat.isEmpty
  | _ :: t => prefixOf pat hay || containsSeq t pat

/-- Model of `String.prototype.includes`. -/
def strIncludes (hay pat : String) : Bool :=
  containsSeq hay.data pat.data

/-- Helper for `jsSplitComma`: accumulate the current field (reversed). -/
def splitCommaAux : List Char → List Char → List String
  | [], acc => [⟨acc.reverse⟩]
  | c :: cs, acc =>
    if c = ',' then (⟨acc.reverse⟩ : String) :: splitCommaAux cs []
    else splitCommaAux cs (c :: acc)

/-- Model of `String.prototype.split(',')`. -/
def jsSplitComma (s : String) : List String :=
  splitCommaAux s.data []

/-! ### Model of the platform JSON parser (`JSON.parse`)

`JSON.parse` is a platform primitive; we model it by an executable
recursive-descent parser for the JSON grammar.  Numbers are kept as their
source lexeme (no claim inspects numeric values).  The parser returns
`none` exactly when `JSON.parse` would throw a `SyntaxError`. -/

/-- JSON values as produced by the platform parser. -/
inductive Json where
  | null : Json
  | bool (b : Bool) : Json
  | num (lexeme : String) : Json
  | str (s : String) : Json
  | arr (elems : List Json) : Json
  | obj (fields : List (String × Json)) : Json

/-- Skip JSON whitespace (space, tab, line feed, carriage return). -/
def skipWs : List Char → List Char
  | c :: cs =>
    if c = ' ' ∨ c = Char.ofNat 9 ∨ c = Char.ofNat 10 ∨ c = Char.ofNat 13 then
      skipWs cs
    else c :: cs
  | [] => []

/-- Value of a hexadecimal digit. -/
def hexDigit (c : Char) : Option Nat :=
  if '0' ≤ c ∧ c ≤ '9' then some (c.toNat - '0'.toNat)
  else if 'a' ≤ c ∧ c ≤ 'f' then some (c.toNat - 'a'.toNat + 10)
  else if 'A' ≤ c ∧ c ≤ 'F' then some (c.toNat - 'A'.toNat + 10)
  else none

/-- Translation of a single-character JSON string escape. -/
def escapeChar : Char → Option Char
  | '"' => some '"'
  | '\\' => some '\\'
  | '/' => some '/'
  | 'b' => some (Char.ofNat 8)
  | 'f' => some (Char.ofNat 12)
  | 'n' => some (Char.ofNat 10)
  | 'r' => some (Char.ofNat 13)
  | 't' => some (Char.ofNat 9)
  | _ => none

/-- Parse the body of a JSON string after the opening quote; returns the
decoded characters and the input remaining after the closing quote. -/
def parseStringChars (fuel : Nat) (input : List Char) :
    Option (List Char × List Char) :=
  match fuel with
  | 0 => none
  | Nat.succ fuel =>
    match input with
    | [] => none
    | c :: cs =>
      if c = '"' then some ([], cs)
      else if c = '\\' then
        match cs with
        | [] => none
        | e :: cs2 =>
          if e = 'u' then
            match cs2 with
            | h1 :: h2 :: h3 :: h4 :: cs3 =>
              match hexDigit h1, hexDigit h2, hexDigit h3, hexDigit h4 with
              | some a, some b, some c4, some d =>
                match parseStringChars fuel cs3 with
                | some (out, rest) =>
                  some (Char.ofNat (((a * 16 + b) * 16 + c4) * 16 + d) :: out, rest)
                | none => none
              | _, _, _, _ => none
            | _ => none
          else
            match escapeChar e with
            | some ec =>
              match parseStringChars fuel cs2 with
              | some (out, rest) => some (ec :: out, rest)
              | none => none
            | none => none
      else if c.toNat < 32 then none
      else
        match parseStringChars fuel cs with
        | some (out, rest) => some (c :: out, rest)
        | none => none

/-- Longest digit prefix and the remaining input. -/
def digitSpan : List Char → List Char × List Char
  | [] => ([], [])
  | c :: cs =>
    if c.isDigit then
      match digitSpan cs with
      | (d, r) => (c :: d, r)
    else ([], c :: cs)

/-- Integer part of a JSON number: `0` or a nonzero digit followed by
digits. -/
def parseIntPart : List Char → Option (List Char × List Char)
  | [] => none
  | c :: cs =>
    if c = '0' then some ([c], cs)
    else if c.isDigit then
      match digitSpan cs with
      | (d, r) => some (c :: d, r)
    else none

/-- Optional fraction part of a JSON number. -/
def parseFracPart : List Char → List Char × List Char
  | '.' :: cs =>
    (match digitSpan cs with
     | ([], _) => ([], '.' :: cs)
     | (ds, r) => ('.' :: ds, r))
  | cs => ([], cs)

/-- Optional exponent part of a JSON number. -/
def parseExpPart : List Char → List Char × List Char
  | [] => ([], [])
  | c :: cs =>
    if c = 'e' ∨ c = 'E' then
      match cs with
      | [] => ([], [c])
      | s :: cs2 =>
        if s = '+' ∨ s = '-' then
          match digitSpan cs2 with
          | ([], _) => ([], c :: s :: cs2)
          | (ds, r) => (c :: s :: ds, r)
        else
          match digitSpan (s :: cs2) with
          | ([], _) => ([], c :: s :: cs2)
          | (ds, r) => (c :: ds, r)
    else ([], c :: cs)

/-- Parse a JSON number, keeping its source lexeme. -/
def parseNumber (input : List Char) : Option (Json × List Char) :=
  let (negPart, afterNeg) :=
    match input with
    | '-' :: r => (['-'], r)
    | _ => (([] : List Char), input)
  match parseIntPart afterNeg with
  | none => none
  | some (ip, r1) =>
    match parseFracPart r1 with
    | (fp, r2) =>
      match parseExpPart r2 with
      | (ep, r3) => some (Json.num ⟨negPart ++ ip ++ fp ++ ep⟩, r3)

mutual

/-- Parse one JSON value; fuel bounds the recursion depth. -/
def parseValue (fuel : Nat) (input : List Char) : Option (Json × List Char) :=
  match fuel with
  | 0 => none
  | Nat.succ fuel =>
    match skipWs input with
    | 'n' :: 'u' :: 'l' :: 'l' :: rest => some (Json.null, rest)
    | 't' :: 'r' :: 'u' :: 'e' :: rest => some (Json.bool true, rest)
    | 'f' :: 'a' :: 'l' :: 's' :: 'e' :: rest => some (Json.bool false, rest)
    | '"' :: rest =>
      (match parseStringChars (rest.length + 1) rest with
       | some (out, r) => some (Json.str ⟨out⟩, r)
       | none => none)
    | '[' :: rest =>
      (match skipWs rest with
       | ']' :: r => some (Json.arr [], r)
       | cs2 =>
         match parseElems fuel cs2 with
         | some (vs, r) => some (Json.arr vs, r)
         | none => none)
    | '{' :: rest =>
      (match skipWs rest with
       | '}' :: r => some (Json.obj [], r)
       | cs2 =>
         match parseMembers fuel cs2 with
         | some (kvs, r) => some (Json.obj kvs, r)
         | none => none)
    | other => parseNumber other

/-- Parse the comma-separated elements of a (nonempty) JSON array,
including the closing bracket. -/
def parseElems (fuel : Nat) (input : List Char) :
    Option (List Json × List Char) :=
  match fuel with
  | 0 => none
  | Nat.succ fuel =>
    match parseValue fuel input with
    | none => none
    | some (v, r) =>
      match skipWs r with
      | ',' :: r2 =>
        (match parseElems fuel r2 with
         | some (vs, r3) => some (v :: vs, r3)
         | none => none)
      | ']' :: r2 => some ([v], r2)
      | _ => none

/-- Parse the comma-separated members of a (nonempty) JSON object,
including the closing brace. -/
def parseMembers (fuel : Nat) (input : List Char) :
    Option (List (String × Json) × List Char) :=
  match fuel with
  | 0 => none
  | Nat.succ fuel =>
    match skipWs input with
    | '"' :: rest =>
      (match parseStringChars (rest.length + 1) rest with
       | none => none
       | some (key, r1) =>
         match skipWs r1 with
         | ':' :: r2 =>
           (match parseValue fuel r2 with
            | none => none
            | some (v, r3) =>
              match skipWs r3 with
              | ',' :: r4 =>
                (match parseMembers fuel r4 with
                 | some (kvs, r5) => some ((⟨key⟩, v) :: kvs, r5)
                 | none => none)
              | '}' :: r4 => some ([(⟨key⟩, v)], r4)
              | _ => none)
         | _ => none)
    | _ => none

end

/-- Model of the platform `JSON.parse`: `some` on a well-formed JSON text,
`none` when `JSON.parse` would throw. -/
def jsonParse (s : String) : Option Json :=
  match parseValue (2 * s.length + 2) s.data with
  | some (v, rest) => if (skipWs rest).isEmpty then some v else none
  | none => none

/-! ### The component state (src/App.tsx, lines 6-11)

`result` is modelled as `Option Json`: the source stores whatever value
`JSON.parse` returned (`setResult(parsedResult)` with `parsedResult : any`),
so the runtime content is an arbitrary JSON value even though the state is
declared with the two-field type. -/

/-- The six `useState` cells of the component. -/
structure AppState where
  image : Option String
  loading : Bool
  result : Option Json
  error : Option String
  apiKey : String
  showKey : Bool

/-- Initial values of the `useState` cells. -/
def initialState : AppState :=
  { image := none, loading := false, result := none, error := none,
    apiKey := "", showKey := false }

/-- The fixed `localStorage` key (src/App.tsx lines 16 and 24). -/
def storageKey : String := "eman_ai_describer_apikey"

/-- The persistent browser key-value store. -/
def Store := String → Option String

/-- The mount effect (src/App.tsx lines 15-20): read the saved key and, if
it is truthy (present and non-empty), initialize the in-memory credential. -/
def loadOnMount (s : AppState) (store : Store) : AppState :=
  match store storageKey with
  | some k => if k = "" then s else { s with apiKey := k }
  | none => s

/-- `saveApiKey` (src/App.tsx lines 22-25): write-through setter for the
credential. -/
def saveApiKey (s : AppState) (store : Store) (key : String) :
    AppState × Store :=
  ({ s with apiKey := key },
   fun q => if q = storageKey then some key else store q)

/-- `handleImageChange` (src/App.tsx lines 27-38).  The argument is the
selected file's read outcome: `none` when no file was chosen (nothing
happens), `some uri` when the `FileReader` completed with data URI `uri`. -/
def handleImageChange (s : AppState) (file : Option String) : AppState :=
  match file with
  | none => s
  | some uri => { s with image := some uri, result := none, error := none }

/-! ### The inference call (`analyzeImage`, src/App.tsx lines 40-101) -/

/-- Fixed user-facing strings of `analyzeImage` (src/App.tsx). -/
def keyAlertMsg : String := "يرجى إدخال مفتاح API الخاص بك أولاً!"

/-- Message of the error thrown when the response text is falsy
(src/App.tsx line 89). -/
def emptyRespMsg : String := "لم يتم استلام أي استجابة من النموذج."

/-- Error message shown for an authorization failure (src/App.tsx line 94). -/
def invalidKeyMsg : String :=
  "مفتاح API غير صالح. يرجى التحقق من المفتاح والمحاولة مرة أخرى."

/-- Error message shown for any other failure (src/App.tsx line 96). -/
def genericErrMsg : String :=
  "حدث خطأ أثناء التحليل. يرجى التأكد من صلاحية المفتاح ووجود رصيد متاح."

/-- The fixed instruction text sent with the image (src/App.tsx lines
66-74). -/
def promptInstruction : String :=
  "حلل هذه الصورة بعناية فائقة. \n                1. قدم وصفاً تفصيلياً وشاملاً باللغة العربية.\n                2. صغ أمراً احترافياً باللغة الإنجليزية لتوليد صورة مشابهة (Prompt) لاستخدامه في Midjourney أو DALL-E.\n                \n                يجب أن يكون الرد بتنسيق JSON حصراً:\n                \x7b\n                  \"description\": \"النص العربي هنا\",\n                  \"prompt\": \"The English prompt here\"\n                \x7d"

/-- The inline image part of the request (src/App.tsx lines 60-63). -/
structure InlineData where
  mimeType : String
  data : Option String

/-- The request handed to `ai.models.generateContent` (src/App.tsx lines
54-82). -/
structure GenRequest where
  model : String
  apiKey : String
  inlineData : InlineData
  instruction : String
  responseMimeType : String

/-- The request built by `analyzeImage` from the current state and the
active image data URI: `image.split(',')[1]` is the payload after the
data-URI header, and the MIME type is fixed. -/
def mkRequest (s : AppState) (img : String) : GenRequest :=
  { model := "gemini-3-flash-preview"
    apiKey := jsTrim s.apiKey
    inlineData := { mimeType := "image/jpeg", data := (jsSplitComma img)[1]? }
    instruction := promptInstruction
    responseMimeType := "application/json" }

/-- Behaviour of the awaited `generateContent` call: either the promise
rejects with an error carrying a message, or it resolves to a response
whose `.text` accessor yields an optional string. -/
inductive InferOutcome where
  | throws (message : String) : InferOutcome
  | responds (text : Option String) : InferOutcome

/-- Environment of one `analyzeImage` invocation: the model's behaviour,
plus the message the platform `SyntaxError` would carry if `JSON.parse`
throws (that message is produced by the JavaScript engine, not by the
repository's code, so it is a parameter). -/
structure InferEnv where
  outcome : InferOutcome
  parseFailMsg : String

/-- The catch-block classification (src/App.tsx lines 93-97): the message
text decides between the invalid-key message and the generic message. -/
def classifyError (m : String) : String :=
  if strIncludes m "403" || strIncludes m "API_KEY_INVALID" then invalidKeyMsg
  else genericErrMsg

/-- The state from which the inference call is dispatched (src/App.tsx
lines 47-48): busy set, prior error cleared. -/
def dispatchState (s : AppState) : AppState :=
  { s with loading := true, error := none }

/-- The try/catch body of `analyzeImage` after dispatch (src/App.tsx lines
84-97): a falsy text payload throws the empty-response error; otherwise the
payload is JSON-parsed and stored as the result; every thrown error lands
in the catch block, which sets the classified error message. -/
def runInference (s1 : AppState) (env : InferEnv) : AppState :=
  match env.outcome with
  | InferOutcome.throws m => { s1 with error := some (classifyError m) }
  | InferOutcome.responds none =>
    { s1 with error := some (classifyError emptyRespMsg) }
  | InferOutcome.responds (some txt) =>
    if txt = "" then { s1 with error := some (classifyError emptyRespMsg) }
    else
      match jsonParse txt with
      | some v => { s1 with result := some v }
      | none => { s1 with error := some (classifyError env.parseFailMsg) }

/-- Observable outcome of one `analyzeImage` invocation: the new state,
the network request issued (if any), and the blocking alert shown (if
any). -/
structure AnalyzeOutcome where
  state : AppState
  request : Option GenRequest
  notice : Option String

/-- `analyzeImage` (src/App.tsx lines 40-101).  Guard clauses: a
trim-empty credential alerts and aborts; an absent image aborts silently.
Otherwise busy is set, the request is dispatched, the response is handled
in the try/catch, and `finally` clears busy. -/
def analyzeImage (s : AppState) (env : InferEnv) : AnalyzeOutcome :=
  if jsTrim s.apiKey = "" then
    { state := s, request := none, notice := some keyAlertMsg }
  else
    match s.image with
    | none => { state := s, request := none, notice := none }
    | some img =>
      { state := { runInference (dispatchState s) env with loading := false }
        request := some (mkRequest s img)
        notice := none }

/-! ### Events and reachable states -/

/-- User-interface events that drive the component. -/
inductive Event where
  | selectFile (file : Option String) : Event
  | setKey (k : String) : Event
  | toggleKey : Event
  | clickAnalyze (env : InferEnv) : Event

/-- One step of the component.  The analyze button is disabled while no
image is present or a call is outstanding (src/App.tsx line 215), so a
click in those states does nothing. -/
def step (s : AppState) : Event → AppState
  | Event.selectFile f => handleImageChange s f
  | Event.setKey k => { s with apiKey := k }
  | Event.toggleKey => { s with showKey := !s.showKey }
  | Event.clickAnalyze env =>
    if s.image.isNone || s.loading then s else (analyzeImage s env).state

/-- Run a sequence of events from a state. -/
def run (s : AppState) (evs : List Event) : AppState :=
  evs.foldl step s

/-- A state is reachable when some persisted store and some event sequence
produce it from a fresh mount. -/
def Reachable (s : AppState) : Prop :=
  ∃ store : Store, ∃ evs : List Event,
    run (loadOnMount initialState store) evs = s

/-! ### Spec-side predicates -/

/-- Is the value a string? -/
def isStr : Json → Bool
  | Json.str _ => true
  | _ => false

/-- Does the object field list carry a string value under the key? -/
def hasStrField : List (String × Json) → String → Bool
  | [], _ => false
  | (k, v) :: rest, key => (k = key && isStr v) || hasStrField rest key

/-- The spec's two-field result shape: an object with string fields
`description` and `prompt`. -/
def isTwoFieldShape : Json → Bool
  | Json.obj kvs => hasStrField kvs "description" && hasStrField kvs "prompt"
  | _ => false

/-- The spec's Analysis-result invariant: the result is absent, or it has
both string fields. -/
def resultInvariant (s : AppState) : Bool :=
  match s.result with
  | none => true
  | some v => isTwoFieldShape v

/-- The message caught by the catch block of `analyzeImage`, if the
invocation reaches a failure: the rejection's message, the empty-response
message on a falsy text payload, or the platform parse-error message on a
JSON parse failure.  `none` when the try block succeeds. -/
def caughtMessage (env : InferEnv) : Option String :=
  match env.outcome with
  | InferOutcome.throws m => some m
  | InferOutcome.responds none => some emptyRespMsg
  | InferOutcome.responds (some txt) =>
    if txt = "" then some emptyRespMsg
    else
      match jsonParse txt with
      | some _ => none
      | none => some env.parseFailMsg

/-- An environment honours the declared response schema when any non-empty
text payload it delivers parses into the two-field shape. -/
def envGivesShape (env : InferEnv) : Bool :=
  match env.outcome with
  | InferOutcome.responds (some txt) =>
    if txt = "" then true
    else
      match jsonParse txt with
      | some v => isTwoFieldShape v
      | none => true
  | _ => true

/-- An event is schema-honouring when any analysis environment in it is. -/
def eventOk : Event → Bool
  | Event.clickAnalyze env => envGivesShape env
  | _ => true

/-- A failing inference environment: the call rejects, the text payload is
falsy (absent or empty), or the payload is not valid JSON. -/
def FailureEnv (env : InferEnv) : Prop :=
  (∃ m, env.outcome = InferOutcome.throws m) ∨
  env.outcome = InferOutcome.responds none ∨
  env.outcome = InferOutcome.responds (some "") ∨
  (∃ t, env.outcome = InferOutcome.responds (some t) ∧ t ≠ "" ∧
    jsonParse t = none)

/-! ### Shared facts and concrete data -/

/-- The classified error message is always one of the two fixed messages. -/
lemma classifyError_cases (m : String) :
    classifyError m = invalidKeyMsg ∨ classifyError m = genericErrMsg := by
  unfold classifyError
  split
  · exact Or.inl rfl
  · exact Or.inr rfl

/-- The spec's mocked success payload. -/
def goodPayload : String := "\x7b\"description\":\"A\",\"prompt\":\"B\"\x7d"

/-- The mocked success payload parses to the two-field object. -/
lemma goodPayload_parse :
    jsonParse goodPayload =
      some (Json.obj [("description", Json.str "A"), ("prompt", Json.str "B")]) :=
  rfl

/-- The mocked success payload is a non-empty (truthy) string. -/
lemma goodPayload_ne : goodPayload ≠ "" := by decide

/-! ### Claim theorems -/

/-- C2: for every invocation of analysis with a credential passing the
non-empty check and an image present, if the model responds with the
textual payload `{"description":"A","prompt":"B"}` then after the
invocation completes the stored result is the parsed two-field object
`{description: "A", prompt: "B"}`, the error is absent and busy is
false. -/
theorem c2_success_stores_result (s : AppState) (env : InferEnv)
    (img : String) (hk : jsTrim s.apiKey ≠ "") (hi : s.image = some img)
    (henv : env.outcome = InferOutcome.responds (some goodPayload)) :
    (analyzeImage s env).state.result =
      some (Json.obj [("description", Json.str "A"), ("prompt", Json.str "B")]) ∧
    (analyzeImage s env).state.error = none ∧
    (analyzeImage s env).state.loading = false := by
  simp [analyzeImage, hk, hi, runInference, henv, goodPayload_ne,
    goodPayload_parse, dispatchState]

/-- Concrete state for exercising the claim theorems: key `"k"`, an image
present. -/
def sampleState : AppState :=
  { initialState with apiKey := "k", image := some "data:,x" }

/-- Witness for C2 at a concrete state and a concrete mocked response. -/
theorem c2_witness :
    jsTrim sampleState.apiKey ≠ "" ∧ sampleState.image = some "data:,x" ∧
    ((analyzeImage sampleState
        { outcome := InferOutcome.responds (some goodPayload),
          parseFailMsg := "syntax" }).state.result =
      some (Json.obj [("description", Json.str "A"), ("prompt", Json.str "B")]) ∧
    (analyzeImage sampleState
        { outcome := InferOutcome.responds (some goodPayload),
          parseFailMsg := "syntax" }).state.error = none ∧
    (analyzeImage sampleState
        { outcome := InferOutcome.responds (some goodPayload),
          parseFailMsg := "syntax" }).state.loading = false) :=
  ⟨by decide, rfl,
   c2_success_stores_result sampleState
     { outcome := InferOutcome.responds (some goodPayload),
       parseFailMsg := "syntax" }
     "data:,x" (by decide) rfl rfl⟩

/-- C3: every invocation reaching the inference call that fails (rejection,
falsy text payload, or invalid-JSON payload) completes: an error message
(one of the two fixed messages) is set, the previously stored result is
unchanged, and busy is false.  The embedding is a total function, so the
invocation cannot crash. -/
theorem c3_failure_keeps_result (s : AppState) (env : InferEnv)
    (hk : jsTrim s.apiKey ≠ "") (hi : ∃ img, s.image = some img)
    (hf : FailureEnv env) :
    (analyzeImage s env).state.result = s.result ∧
    ((analyzeImage s env).state.error = some invalidKeyMsg ∨
     (analyzeImage s env).state.error = some genericErrMsg) ∧
    (analyzeImage s env).state.loading = false := by
  obtain ⟨img, hi⟩ := hi
  rcases hf with ⟨m, hm⟩ | hm | hm | ⟨t, hm, ht, hp⟩
  · simp [analyzeImage, hk, hi, runInference, hm, dispatchState,
      classifyError_cases]
  · simp [analyzeImage, hk, hi, runInference, hm, dispatchState,
      classifyError_cases]
  · simp [analyzeImage, hk, hi, runInference, hm, dispatchState,
      classifyError_cases]
  · simp [analyzeImage, hk, hi, runInference, hm, ht, hp, dispatchState,
      classifyError_cases]

/-- Witness for C3 at a concrete state and a concrete rejection. -/
theorem c3_witness :
    jsTrim sampleState.apiKey ≠ "" ∧ (∃ img, sampleState.image = some img) ∧
    FailureEnv { outcome := InferOutcome.throws "network down",
                 parseFailMsg := "syntax" } ∧
    ((analyzeImage sampleState
        { outcome := InferOutcome.throws "network down",
          parseFailMsg := "syntax" }).state.result = sampleState.result ∧
    ((analyzeImage sampleState
        { outcome := InferOutcome.throws "network down",
          parseFailMsg := "syntax" }).state.error = some invalidKeyMsg ∨
     (analyzeImage sampleState
        { outcome := InferOutcome.throws "network down",
          parseFailMsg := "syntax" }).state.error = some genericErrMsg) ∧
    (analyzeImage sampleState
        { outcome := InferOutcome.throws "network down",
          parseFailMsg := "syntax" }).state.loading = false) :=
  ⟨by decide, ⟨"data:,x", rfl⟩, Or.inl ⟨"network down", rfl⟩,
   c3_failure_keeps_result sampleState
     { outcome := InferOutcome.throws "network down", parseFailMsg := "syntax" }
     (by decide) ⟨"data:,x", rfl⟩ (Or.inl ⟨"network down", rfl⟩)⟩

/-- C4: on every failure during the inference call the error is chosen by
exactly the implemented rule: the invalid-key message when the caught
failure's message text contains `403` or `API_KEY_INVALID`, otherwise the
generic message; and the empty-payload message classifies as generic. -/
theorem c4_error_classification (s : AppState) (env : InferEnv) (m : String)
    (hk : jsTrim s.apiKey ≠ "") (hi : ∃ img, s.image = some img)
    (hm : caughtMessage env = some m) :
    (analyzeImage s env).state.error = some (classifyError m) ∧
    classifyError emptyRespMsg = genericErrMsg := by
  obtain ⟨img, hi⟩ := hi
  refine ⟨?_, by decide⟩
  cases henv : env.outcome with
  | throws m0 =>
    simp only [caughtMessage, henv] at hm
    obtain rfl : m0 = m := by simpa using hm
    simp [analyzeImage, hk, hi, runInference, henv, dispatchState]
  | responds t =>
    cases t with
    | none =>
      simp only [caughtMessage, henv] at hm
      obtain rfl : emptyRespMsg = m := by simpa using hm
      simp [analyzeImage, hk, hi, runInference, henv, dispatchState]
    | some txt =>
      simp only [caughtMessage, henv] at hm
      by_cases ht : txt = ""
      · rw [if_pos ht] at hm
        obtain rfl : emptyRespMsg = m := by simpa using hm
        simp [analyzeImage, hk, hi, runInference, henv, ht, dispatchState]
      · rw [if_neg ht] at hm
        cases hp : jsonParse txt with
        | some v => rw [hp] at hm; cases hm
        | none =>
          rw [hp] at hm
          obtain rfl : env.parseFailMsg = m := by simpa using hm
          simp [analyzeImage, hk, hi, runInference, henv, ht, hp,
            dispatchState]

/-- Witness for C4 at a concrete state and a 403-marked rejection. -/
theorem c4_witness :
    jsTrim sampleState.apiKey ≠ "" ∧ (∃ img, sampleState.image = some img) ∧
    caughtMessage { outcome := InferOutcome.throws "got 403 Forbidden",
                    parseFailMsg := "syntax" } = some "got 403 Forbidden" ∧
    ((analyzeImage sampleState
        { outcome := InferOutcome.throws "got 403 Forbidden",
          parseFailMsg := "syntax" }).state.error =
      some (classifyError "got 403 Forbidden") ∧
    classifyError emptyRespMsg = genericErrMsg) :=
  ⟨by decide, ⟨"data:,x", rfl⟩, rfl,
   c4_error_classification sampleState
     { outcome := InferOutcome.throws "got 403 Forbidden",
       parseFailMsg := "syntax" }
     "got 403 Forbidden" (by decide) ⟨"data:,x", rfl⟩ rfl⟩

/-- C5: for every invocation passing both preconditions, the state from
which the call is dispatched has busy true, a request is issued, and the
final state of the invocation has busy false whatever the call's
behaviour. -/
theorem c5_busy_lifecycle (s : AppState) (env : InferEnv)
    (hk : jsTrim s.apiKey ≠ "") (hi : ∃ img, s.image = some img) :
    (dispatchState s).loading = true ∧
    (analyzeImage s env).request.isSome = true ∧
    (analyzeImage s env).state.loading = false := by
  obtain ⟨img, hi⟩ := hi
  refine ⟨rfl, ?_, ?_⟩ <;> simp [analyzeImage, hk, hi]

/-- Witness for C5 at a concrete state and a concrete rejection. -/
theorem c5_witness :
    jsTrim sampleState.apiKey ≠ "" ∧ (∃ img, sampleState.image = some img) ∧
    ((dispatchState sampleState).loading = true ∧
    (analyzeImage sampleState
        { outcome := InferOutcome.throws "boom",
          parseFailMsg := "syntax" }).request.isSome = true ∧
    (analyzeImage sampleState
        { outcome := InferOutcome.throws "boom",
          parseFailMsg := "syntax" }).state.loading = false) :=
  ⟨by decide, ⟨"data:,x", rfl⟩,
   c5_busy_lifecycle sampleState
     { outcome := InferOutcome.throws "boom", parseFailMsg := "syntax" }
     (by decide) ⟨"data:,x", rfl⟩⟩

/-- C6: every completed image intake replaces the active image with the
newly encoded data URI and unconditionally clears the result and the
error, leaving every other state cell unchanged. -/
theorem c6_image_intake_clears (s : AppState) (uri : String) :
    handleImageChange s (some uri) =
      { s with image := some uri, result := none, error := none } :=
  rfl

/-- C7: whenever the credential is empty or whitespace-only (its trim is
empty), invoking analysis shows the blocking notice, issues no network
request and performs no state mutation at all. -/
theorem c7_empty_key_blocks (s : AppState) (env : InferEnv)
    (h : jsTrim s.apiKey = "") :
    analyzeImage s env =
      { state := s, request := none, notice := some keyAlertMsg } := by
  unfold analyzeImage
  rw [if_pos h]

/-- Witness for C7 at a whitespace-only credential. -/
theorem c7_witness :
    jsTrim ({ initialState with apiKey := " \t " } : AppState).apiKey = "" ∧
    analyzeImage { initialState with apiKey := " \t " }
        { outcome := InferOutcome.throws "never", parseFailMsg := "syntax" } =
      { state := { initialState with apiKey := " \t " }, request := none,
        notice := some keyAlertMsg } :=
  ⟨by decide,
   c7_empty_key_blocks { initialState with apiKey := " \t " }
     { outcome := InferOutcome.throws "never", parseFailMsg := "syntax" }
     (by decide)⟩

/-- C8 (amended): with no image selected, invoking analysis performs no
state transition and issues no network call; it is additionally silent
(no notice) whenever the credential passes the non-empty check.  When the
credential check fails too, the missing-credential notice is shown
first. -/
theorem c8_no_image_noop (s : AppState) (env : InferEnv)
    (h : s.image = none) :
    (analyzeImage s env).state = s ∧ (analyzeImage s env).request = none ∧
    (jsTrim s.apiKey ≠ "" → (analyzeImage s env).notice = none) := by
  by_cases hk : jsTrim s.apiKey = "" <;> simp [analyzeImage, hk, h]

/-- C8 counterexample: in the no-image state with an empty credential the
invocation is not silent — the blocking credential notice is shown (while
still no state change and no call occur). -/
theorem c8_counterexample :
    initialState.image = none ∧
    (analyzeImage initialState
        { outcome := InferOutcome.throws "never",
          parseFailMsg := "syntax" }).notice = some keyAlertMsg :=
  ⟨rfl, rfl⟩

/-- Witness for C8 at a concrete no-image state with a non-empty key. -/
theorem c8_witness :
    ({ initialState with apiKey := "k" } : AppState).image = none ∧
    ((analyzeImage { initialState with apiKey := "k" }
        { outcome := InferOutcome.throws "never",
          parseFailMsg := "syntax" }).state =
      { initialState with apiKey := "k" } ∧
    (analyzeImage { initialState with apiKey := "k" }
        { outcome := InferOutcome.throws "never",
          parseFailMsg := "syntax" }).request = none ∧
    (jsTrim ({ initialState with apiKey := "k" } : AppState).apiKey ≠ "" →
      (analyzeImage { initialState with apiKey := "k" }
        { outcome := InferOutcome.throws "never",
          parseFailMsg := "syntax" }).notice = none)) :=
  ⟨rfl,
   c8_no_image_noop { initialState with apiKey := "k" }
     { outcome := InferOutcome.throws "never", parseFailMsg := "syntax" }
     rfl⟩

/-- C9: saving any credential value `x` and then reloading the component
(fresh mount reading the persistent store) initializes the in-memory
credential to `x`; the empty string round-trips because the mount's truthy
check leaves the initial empty credential in place. -/
theorem c9_credential_roundtrip (s : AppState) (store : Store) (x : String) :
    (loadOnMount initialState (saveApiKey s store x).2).apiKey = x := by
  unfold saveApiKey loadOnMount
  simp only [if_pos rfl]
  by_cases h : x = "" <;> simp [h, initialState]

/-- C10: every inference request ever issued declares the fixed MIME type
`image/jpeg` for the inline image bytes, whatever the selected file and
its data URI say. -/
theorem c10_fixed_mime (s : AppState) (env : InferEnv) (req : GenRequest)
    (h : (analyzeImage s env).request = some req) :
    req.inlineData.mimeType = "image/jpeg" := by
  by_cases hk : jsTrim s.apiKey = ""
  · simp [analyzeImage, hk] at h
  · cases hi : s.image with
    | none => simp [analyzeImage, hk, hi] at h
    | some img =>
      simp only [analyzeImage, if_neg hk, hi] at h
      obtain rfl : mkRequest s img = req := by simpa using h
      rfl

/-- Concrete state whose image data URI records the PNG MIME type. -/
def pngState : AppState :=
  { initialState with apiKey := "k", image := some "data:image/png;base64,AAAA" }

/-- Witness for C10: a request built from a PNG data URI still declares
`image/jpeg`. -/
theorem c10_witness :
    (analyzeImage pngState
        { outcome := InferOutcome.responds none,
          parseFailMsg := "syntax" }).request =
      some (mkRequest pngState "data:image/png;base64,AAAA") ∧
    (mkRequest pngState "data:image/png;base64,AAAA").inlineData.mimeType =
      "image/jpeg" :=
  ⟨rfl,
   c10_fixed_mime pngState
     { outcome := InferOutcome.responds none, parseFailMsg := "syntax" }
     (mkRequest pngState "data:image/png;base64,AAAA") rfl⟩

/-- One step preserves the result invariant, provided any analysis
environment in the event honours the declared response schema. -/
lemma step_preserves_invariant (s : AppState) (e : Event)
    (hs : resultInvariant s = true) (he : eventOk e = true) :
    resultInvariant (step s e) = true := by
  cases e with
  | selectFile f =>
    cases f with
    | none => simpa [step, handleImageChange] using hs
    | some uri => simp [step, handleImageChange, resultInvariant]
  | setKey k => simpa [step, resultInvariant] using hs
  | toggleKey => simpa [step, resultInvariant] using hs
  | clickAnalyze env =>
    simp only [step]
    split
    · exact hs
    · by_cases hk : jsTrim s.apiKey = ""
      · simpa [analyzeImage, hk] using hs
      · cases hi : s.image with
        | none => simpa [analyzeImage, hk, hi] using hs
        | some img =>
          cases henv : env.outcome with
          | throws m =>
            simpa [analyzeImage, hk, hi, runInference, henv, dispatchState,
              resultInvariant] using hs
          | responds t =>
            cases t with
            | none =>
              simpa [analyzeImage, hk, hi, runInference, henv, dispatchState,
                resultInvariant] using hs
            | some txt =>
              by_cases ht : txt = ""
              · simpa [analyzeImage, hk, hi, runInference, henv, ht,
                  dispatchState, resultInvariant] using hs
              · cases hp : jsonParse txt with
                | none =>
                  simpa [analyzeImage, hk, hi, runInference, henv, ht, hp,
                    dispatchState, resultInvariant] using hs
                | some v =>
                  have hv : isTwoFieldShape v = true := by
                    simpa [eventOk, envGivesShape, henv, ht, hp] using he
                  simpa [analyzeImage, hk, hi, runInference, henv, ht, hp,
                    dispatchState, resultInvariant] using hv

/-- Running any schema-honouring event sequence preserves the result
invariant. -/
lemma run_preserves_invariant (evs : List Event) :
    ∀ s : AppState, resultInvariant s = true →
      (∀ e ∈ evs, eventOk e = true) → resultInvariant (run s evs) = true := by
  induction evs with
  | nil => intro s hs _; simpa [run] using hs
  | cons e rest ih =>
    intro s hs he
    have h1 : eventOk e = true := he e (by simp)
    have h2 : ∀ x ∈ rest, eventOk x = true := fun x hx => he x (by simp [hx])
    simpa [run] using ih (step s e) (step_preserves_invariant s e hs h1) h2

/-- C1 (amended): the result is set only from a payload that parses as
JSON, and it stores exactly the parsed value; therefore, whenever every
analysis environment honours the declared two-field response schema, every
reachable state satisfies the Analysis-result invariant (result absent, or
both string fields present).  Without that assumption the invariant can be
violated, because the source stores any parsed JSON value without shape
validation (see the counterexample). -/
theorem c1_invariant_under_schema (store : Store) (evs : List Event)
    (h : ∀ e ∈ evs, eventOk e = true) :
    resultInvariant (run (loadOnMount initialState store) evs) = true := by
  apply run_preserves_invariant evs _ _ h
  unfold loadOnMount
  cases store storageKey with
  | none => rfl
  | some k => by_cases hk : k = "" <;> simp [hk, resultInvariant, initialState]

/-- Environment delivering a well-formed JSON payload that is not the
two-field shape. -/
def badShapeEnv : InferEnv :=
  { outcome := InferOutcome.responds (some "7"), parseFailMsg := "syntax" }

/-- Event sequence reaching a state whose stored result is the JSON number
`7`. -/
def badShapeEvents : List Event :=
  [Event.setKey "k", Event.selectFile (some "data:,x"),
   Event.clickAnalyze badShapeEnv]

/-- The state reached by `badShapeEvents` from a fresh mount with an empty
store. -/
def badShapeState : AppState :=
  run (loadOnMount initialState (fun _ => none)) badShapeEvents

/-- C1 counterexample: a reachable state violating the Analysis-result
invariant as stated — the model answered with the well-formed JSON payload
`7`, which the code parsed and stored as the result even though it is not
a pair of string fields. -/
theorem c1_reachable_violation :
    Reachable badShapeState ∧ resultInvariant badShapeState = false :=
  ⟨⟨fun _ => none, badShapeEvents, rfl⟩, by decide⟩

/-- Schema-honouring event sequence ending in a successful analysis. -/
def goodEvents : List Event :=
  [Event.setKey "k", Event.selectFile (some "data:,x"),
   Event.clickAnalyze
     { outcome := InferOutcome.responds (some goodPayload),
       parseFailMsg := "syntax" }]

/-- Witness for C1 (amended) at a concrete schema-honouring run. -/
theorem c1_witness :
    (∀ e ∈ goodEvents, eventOk e = true) ∧
    resultInvariant (run (loadOnMount initialState (fun _ => none))
      goodEvents) = true :=
  ⟨by decide, c1_invariant_under_schema (fun _ => none) goodEvents (by decide)⟩

end ImageDescriber
